import Mathlib

/-!
Verification development for the WLAN-Scanner analysis engine.

The definitions below are shallow embeddings of the analysis code in
src/app/interference_analyzer.py and src/app/heatmap_generator.py.
Python dictionaries that preserve insertion order (dict / defaultdict)
are modelled as association lists updated in insertion order; a dict
whose values are per-key lists is queried through the function alistGet.
Python floats are modelled as real numbers, and machine integers as Int.
-/

namespace WLAN

/-- Measurement record mirroring APData in app/data_models.py
(restricted to the fields the analysis engine reads: ssid, bssid,
channel, signal_strength, band).  The bssid string is modelled as a
list of characters. -/
structure APData where
  ssid : String
  bssid : List Char
  channel : Int
  signal_strength : Int
  band : String
deriving DecidableEq

/-- Scan point mirroring ScanPoint in app/data_models.py (fields map_x,
map_y, ap_list used by the analyzer; coordinates are numbers). -/
structure ScanPoint where
  map_x : ℚ
  map_y : ℚ
  ap_list : List APData
deriving DecidableEq

/-- The character replacement performed by bssid.replace in
_get_device_id (interference_analyzer.py line 268). -/
def dashToColon (c : Char) : Char := if c = '-' then ':' else c

/-- Python str.split on the colon character: splits at every colon and
keeps empty fragments, exactly like "a:b".split given a separator. -/
def splitColon : List Char → List (List Char)
  | [] => [[]]
  | c :: rest =>
    if c = ':' then [] :: splitColon rest
    else
      match splitColon rest with
      | [] => [[c]]
      | g :: gs => (c :: g) :: gs

/-- Python sep.join for a one-character separator. -/
def joinWith (d : Char) : List (List Char) → List Char
  | [] => []
  | [x] => x
  | x :: y :: xs => x ++ d :: joinWith d (y :: xs)

/-- _get_device_id (interference_analyzer.py lines 257-275): replace
dashes by colons, split on colons, and if there are exactly 6 octets
return octets 1-4 joined by colons and upper-cased, otherwise return
the empty key.  The try/except in the source is unreachable because
none of the string operations raises. -/
def _get_device_id (bssid : List Char) : List Char :=
  if bssid = [] then []
  else
    let octets := splitColon (bssid.map dashToColon)
    if octets.length = 6 then
      (joinWith ':' ((octets.drop 1).take 4)).map Char.toUpper
    else []

section AList

variable {κ : Type} [DecidableEq κ] {ν : Type}

/-- Append a value to the list stored under a key, creating the key at
the end when absent: the behaviour of defaultdict(list) item append,
with keys kept in insertion order. -/
def upsert (k : κ) (v : ν) : List (κ × List ν) → List (κ × List ν)
  | [] => [(k, [v])]
  | (k2, vs) :: rest =>
    if k = k2 then (k2, vs ++ [v]) :: rest else (k2, vs) :: upsert k v rest

/-- Dictionary lookup with the empty list as default. -/
def alistGet (k : κ) : List (κ × List ν) → List ν
  | [] => []
  | (k2, vs) :: rest => if k = k2 then vs else alistGet k rest

/-- The keys of an association list, in order. -/
def alistKeys (l : List (κ × List ν)) : List κ := l.map Prod.fst

end AList

/-- The loop body of _group_networks_by_device (lines 286-289): append
the measurement under its device id, skipping empty device ids. -/
def groupStep (acc : List (List Char × List APData)) (n : APData) :
    List (List Char × List APData) :=
  if _get_device_id n.bssid = [] then acc else upsert (_get_device_id n.bssid) n acc

/-- _group_networks_by_device (interference_analyzer.py lines 277-291):
group measurements by device id, skipping measurements whose device id
is empty. -/
def _group_networks_by_device (nets : List APData) : List (List Char × List APData) :=
  nets.foldl groupStep []

/-- Stable insertion step for a descending sort by an integer key: the
new element is placed before the first strictly smaller key, after
equal keys encountered so far were kept in front only when the new
element key is not larger.  Together with sortDesc this models the
stable descending sort performed by Python list.sort(key, reverse=True)
up to the order of elements with equal keys being preserved. -/
def insertDesc (key : α → Int) (x : α) : List α → List α
  | [] => [x]
  | y :: ys => if key y ≤ key x then x :: y :: ys else y :: insertDesc key x ys

/-- Stable descending insertion sort by an integer key. -/
def sortDesc (key : α → Int) : List α → List α
  | [] => []
  | x :: xs => insertDesc key x (sortDesc key xs)

/-- Ascending insertion step for integers (used for the median). -/
def insertAsc (x : Int) : List Int → List Int
  | [] => [x]
  | y :: ys => if x ≤ y then x :: y :: ys else y :: insertAsc x ys

/-- Ascending insertion sort for integers. -/
def sortAscInt (l : List Int) : List Int := l.foldr insertAsc []

/-- Python max over a list of integers (0 for the empty list, which the
source never reaches). -/
def maxIntD : List Int → Int
  | [] => 0
  | x :: xs => xs.foldl max x

/-- Python max(iterable, key) over a non-empty list: the first element
with the maximal key wins, later elements replace the current best only
when strictly larger. -/
def pyMaxBy (key : α → Int) (x : α) (xs : List α) : α :=
  xs.foldl (fun acc m => if key acc < key m then m else acc) x

/-- Python int() on a rational: truncation toward zero. -/
def pyTrunc (q : ℚ) : Int := if q < 0 then ⌈q⌉ else ⌊q⌋

/-- _channels_overlap (interference_analyzer.py lines 244-255). -/
def _channels_overlap (ch1 ch2 : Int) : Bool :=
  if 14 < ch1 ∨ 14 < ch2 then false else decide (|ch1 - ch2| < 5)

/-- The loop body of the strong_24ghz_by_device construction
(_analyze_overlap_interference lines 211-215). -/
def chanStep (acc : List (Int × List (String × Int))) (n : APData) :
    List (Int × List (String × Int)) :=
  if n.channel ≤ 14 ∧ -70 < n.signal_strength ∧ n.ssid ≠ "{Hidden}" then
    upsert n.channel (n.ssid, n.signal_strength) acc
  else acc

/-- The inner per-device channel dictionary built by
_analyze_overlap_interference (lines 208-215): channel to list of
(ssid, rssi) pairs for the 2.4 GHz measurements of one device that are
above the overlap threshold and not hidden. -/
def chanMap (nets : List APData) : List (Int × List (String × Int)) :=
  nets.foldl chanStep []

/-- The outer dictionary strong_24ghz_by_device of
_analyze_overlap_interference: devices (in group order) that have at
least one qualifying measurement, each with its channel dictionary. -/
def strong24ByDevice (nets : List APData) :
    List (List Char × List (Int × List (String × Int))) :=
  (_group_networks_by_device nets).filterMap
    (fun e => let m := chanMap e.2; if m = [] then none else some (e.1, m))

/-- All ordered pairs (earlier, later) of elements of a list: the pair
iteration of _analyze_overlap_interference lines 219-220. -/
def pairsOf : List α → List (α × α)
  | [] => []
  | x :: xs => xs.map (fun y => (x, y)) ++ pairsOf xs

/-- The flat list of (channel, (interfering channel, ssid, rssi))
entries appended by the pair loop of _analyze_overlap_interference
(lines 217-233), in append order.  The per-channel lists of the
defaultdict are recovered by filtering on the first component. -/
def overlapRaw (nets : List APData) : List (Int × Int × String × Int) :=
  (pairsOf (strong24ByDevice nets)).flatMap
    (fun pq =>
      pq.1.2.flatMap
        (fun c1 =>
          pq.2.2.flatMap
            (fun c2 =>
              if c1.1 ≠ c2.1 ∧ _channels_overlap c1.1 c2.1 then
                (c2.2.filterMap
                  (fun sr => if -70 < sr.2 then some (c1.1, (c2.1, sr.1, sr.2)) else none)) ++
                (c1.2.filterMap
                  (fun sr => if -70 < sr.2 then some (c2.1, (c1.1, sr.1, sr.2)) else none))
              else [])))

/-- _analyze_overlap_interference (interference_analyzer.py lines
197-242), presented as the per-channel lookup into the resulting
dictionary: duplicate removal (the Python set, whose iteration order is
unspecified) followed by the descending sort on rssi. -/
def _analyze_overlap_interference (nets : List APData) (ch : Int) :
    List (Int × String × Int) :=
  sortDesc (fun t => t.2.2)
    ((((overlapRaw nets).filter (fun e => decide (e.1 = ch))).map (fun e => e.2)).dedup)

/-- Whether a device group contains a target-network ssid, as decided
by the target_device_ids loops (lines 160-165 and 314-320). -/
def isTargetDevice (prefixes : List String) (dn : List APData) : Bool :=
  dn.any (fun n => prefixes.any (fun p => n.ssid.startsWith p))

/-- _find_strong_interferers (interference_analyzer.py lines 148-195),
presented as the per-channel lookup: entries from non-target devices
above the interference threshold and not hidden, grouped per ssid
keeping the strongest signal, sorted descending by signal. -/
def _find_strong_interferers (nets : List APData) (prefixes : List String) (ch : Int) :
    List (String × Int) :=
  let groups := _group_networks_by_device nets
  let raw := groups.flatMap
    (fun e =>
      if isTargetDevice prefixes e.2 then []
      else
        e.2.filterMap
          (fun n =>
            if n.ssid ≠ "{Hidden}" ∧ -70 < n.signal_strength then
              some (n.channel, (n.ssid, n.signal_strength))
            else none))
  let entries := ((raw.filter (fun e => decide (e.1 = ch))).map (fun e => e.2))
  let bySsid := entries.foldl (fun acc sr => upsert sr.1 sr.2 acc) []
  sortDesc (fun t => t.2) (bySsid.map (fun e => (e.1, maxIntD e.2)))

/-- The strongest target-network signal at a scan point
(_find_problem_areas lines 301-306). -/
def targetSignalAt (prefixes : List String) (aps : List APData) : Option Int :=
  aps.foldl
    (fun acc n =>
      if prefixes.any (fun p => n.ssid.startsWith p) then
        match acc with
        | none => some n.signal_strength
        | some t => if t < n.signal_strength then some n.signal_strength else some t
      else acc) none

/-- The qualifying interferer measurements of one device
(_find_problem_areas lines 329-333). -/
def deviceInterferers (dn : List APData) : List (String × Int × Int) :=
  dn.filterMap
    (fun n =>
      if -70 < n.signal_strength ∧ n.ssid ≠ "{Hidden}" then
        some (n.ssid, (n.channel, n.signal_strength))
      else none)

/-- The per-device strongest interferers collected at one scan point
(_find_problem_areas lines 322-338): one entry per non-target device
with at least one qualifying measurement. -/
def strongInterferersAt (prefixes : List String) (aps : List APData) :
    List (String × Int × Int) :=
  (_group_networks_by_device aps).flatMap
    (fun e =>
      if isTargetDevice prefixes e.2 then []
      else
        match deviceInterferers e.2 with
        | [] => []
        | d :: ds => [pyMaxBy (fun t => t.2.2) d ds])

/-- The problem-area entries contributed by one scan point
(_find_problem_areas lines 300-350).  The condition
(target_signal and target_signal > -60) is Python truthiness: a target
signal of exactly 0 dBm is falsy and disqualifies the point, hence the
t different from 0 conjunct. -/
def problemAreaAt (prefixes : List String) (sp : ScanPoint) :
    List (Int × Int × Int × Nat × List (String × Int × Int)) :=
  match targetSignalAt prefixes sp.ap_list with
  | none => []
  | some t =>
    if t ≠ 0 ∧ -60 < t ∧ 2 ≤ (strongInterferersAt prefixes sp.ap_list).length then
      [(pyTrunc sp.map_x, (pyTrunc sp.map_y, (t, ((strongInterferersAt prefixes sp.ap_list).length,
        (sortDesc (fun x => x.2.2) (strongInterferersAt prefixes sp.ap_list)).take 5))))]
    else []

/-- _find_problem_areas (interference_analyzer.py lines 293-352). -/
def _find_problem_areas (sps : List ScanPoint) (prefixes : List String) :
    List (Int × Int × Int × Nat × List (String × Int × Int)) :=
  sps.flatMap (problemAreaAt prefixes)

/-- One update of the ssid_stats dictionary of
_auto_detect_target_network (lines 109-116): count, max signal starting
from -100 and min signal starting from 0. -/
def statUpd (k : String) (sig : Int) :
    List (String × Nat × Int × Int) → List (String × Nat × Int × Int)
  | [] => [(k, (1, (max (-100) sig, min 0 sig)))]
  | (k2, (c, (mx, mn))) :: rest =>
    if k = k2 then (k2, (c + 1, (max mx sig, min mn sig))) :: rest
    else (k2, (c, (mx, mn))) :: statUpd k sig rest

/-- The loop body of the ssid_stats construction (lines 111-116). -/
def statStep (acc : List (String × Nat × Int × Int)) (n : APData) :
    List (String × Nat × Int × Int) :=
  if n.ssid ≠ "" ∧ n.ssid ≠ "{Hidden}" then statUpd n.ssid n.signal_strength acc
  else acc

/-- The ssid_stats dictionary: hidden and empty ssids are skipped
(Python truthiness of the empty string). -/
def ssidStats (nets : List APData) : List (String × Nat × Int × Int) :=
  nets.foldl statStep []

/-- _auto_detect_target_network (interference_analyzer.py lines
100-136), parametrised by self.target_network_prefixes.  Python
str.split with no argument is modelled by splitting on whitespace and
dropping empty fragments. -/
def _auto_detect_target_network (selfPrefixes : List String) (nets : List APData) :
    List String :=
  if selfPrefixes ≠ [] then selfPrefixes
  else
    let candidates := (ssidStats nets).filterMap
      (fun e =>
        if 10 ≤ e.2.1 ∧ -30 < e.2.2.1 then
          some (e.1, (e.2.1 : Int) * (100 + e.2.2.1))
        else none)
    match sortDesc (fun c => c.2) candidates with
    | [] => []
    | best :: _ =>
      match (((best.1.replace "-" " ").replace "_" " ").split Char.isWhitespace).filter
          (fun s => decide (s ≠ "")) with
      | [] => []
      | p :: _ => [p]

/-- Source location record used by the heatmap generator: the fields of
the ap_location dictionaries that _calculate_signal_at_point and the
grid builder read (x, y, max_signal, band). -/
structure APLoc where
  x : ℝ
  y : ℝ
  max_signal : ℝ
  band : String

/-- _calculate_signal_at_point (heatmap_generator.py lines 453-481):
euclidean pixel distance, conversion to feet at 164 feet per
self.width pixels, band-dependent loss rate, and the unclamped
difference.  The generator width is the parameter w. -/
noncomputable def _calculate_signal_at_point (w : ℕ) (ap : APLoc) (x y : ℝ) : ℝ :=
  let distance_pixels := Real.sqrt ((x - ap.x) ^ 2 + (y - ap.y) ^ 2)
  let distance_feet := distance_pixels * (164.0 / (w : ℝ))
  let path_loss_per_foot : ℝ := if ap.band = "2.4 GHz" then 0.5 else 0.6
  ap.max_signal - distance_feet * path_loss_per_foot

/-- The per-cell maximum loop of _create_signal_strength_grid (lines
435-443): strongest signal over all sources, starting from -999. -/
noncomputable def strongestAt (w : ℕ) (aps : List APLoc) (x y : ℝ) : ℝ :=
  aps.foldl
    (fun acc ap =>
      let s := _calculate_signal_at_point w ap x y
      if acc < s then s else acc) (-999)

/-- One cell of the signal grid (lines 430-449): the cell centre in
pixels, the strongest signal there, stored only above -95 dBm (the
numpy NaN marker is modelled by none). -/
noncomputable def gridCell (w : ℕ) (aps : List APLoc) (row col : ℕ) : Option ℝ :=
  let px : ℝ := ((col * 4 + 2 : ℕ) : ℝ)
  let py : ℝ := ((row * 4 + 2 : ℕ) : ℝ)
  let s := strongestAt w aps px py
  if -95 < s then some s else none

/-- _create_signal_strength_grid (heatmap_generator.py lines 401-451)
for generator dimensions w and h: rows scanned top to bottom, cells
left to right, at grid resolution 4.  The progress callback performs no
computation and is omitted. -/
noncomputable def _create_signal_strength_grid (w h : ℕ) (aps : List APLoc) :
    List (List (Option ℝ)) :=
  (List.range (h / 4)).map
    (fun row => (List.range (w / 4)).map (fun col => gridCell w aps row col))

/-- One measurement dictionary of _identify_ap_locations (lines
335-340): coordinates, signal, and the originating measurement. -/
structure EMeas where
  x : ℝ
  y : ℝ
  signal : Int
  ap_data : APData

/-- The total of the linear-scale weights 10 ^ (signal / 10) of
_estimate_ap_source_location (lines 370-382). -/
noncomputable def total_weight (ms : List EMeas) : ℝ :=
  (ms.map (fun m => (10 : ℝ) ^ (((m.signal : ℝ)) / 10))).sum

/-- The weighted x sum of _estimate_ap_source_location. -/
noncomputable def weighted_x (ms : List EMeas) : ℝ :=
  (ms.map (fun m => m.x * (10 : ℝ) ^ (((m.signal : ℝ)) / 10))).sum

/-- The weighted y sum of _estimate_ap_source_location. -/
noncomputable def weighted_y (ms : List EMeas) : ℝ :=
  (ms.map (fun m => m.y * (10 : ℝ) ^ (((m.signal : ℝ)) / 10))).sum

/-- The estimated location dictionary returned by
_estimate_ap_source_location (lines 390-399), without the constant
placed_ap field. -/
structure EstLoc where
  bssid : List Char
  x : ℝ
  y : ℝ
  max_signal : Int
  ssid : String
  channel : Int
  band : String

/-- _estimate_ap_source_location (heatmap_generator.py lines 353-399):
none for an empty input, otherwise the strongest measurement for the
identity fields and the weight-normalised centroid for the coordinates,
with none when the total weight is zero. -/
noncomputable def _estimate_ap_source_location : List EMeas → Option EstLoc
  | [] => none
  | m0 :: rest =>
    let strongest := pyMaxBy (fun m => m.signal) m0 rest
    let tw := total_weight (m0 :: rest)
    if tw = 0 then none
    else
      some
        { bssid := strongest.ap_data.bssid
          x := weighted_x (m0 :: rest) / tw
          y := weighted_y (m0 :: rest) / tw
          max_signal := strongest.signal
          ssid := strongest.ap_data.ssid
          channel := strongest.ap_data.channel
          band := strongest.ap_data.band }

/-- One (x, y, rssi, ssid) measurement tuple of the interference source
estimation pipeline (heatmap_generator.py lines 864-975). -/
structure TMeas where
  x : ℝ
  y : ℝ
  rssi : Int
  ssid : String

/-- Python min over a non-empty list of reals (0 for the empty list,
never reached by the source). -/
noncomputable def listMinR : List ℝ → ℝ
  | [] => 0
  | x :: xs => xs.foldl min x

/-- Python max over a non-empty list of reals. -/
noncomputable def listMaxR : List ℝ → ℝ
  | [] => 0
  | x :: xs => xs.foldl max x

/-- The offset distance buckets of _triangulate_external_source (lines
1097-1110). -/
def offsetFor (rssi : Int) : ℝ :=
  if -40 < rssi then 80 else if -50 < rssi then 150 else if -60 < rssi then 250 else 400

/-- _triangulate_external_source (heatmap_generator.py lines
1027-1126): bounding box of the measurements, stable descending sort by
rssi, weighted centroid of the top 3, direction from the caller or the
nearest-edge fallback, and edge placement at the bucketed offset.  The
Python truthiness test "if direction:" is true for every tuple, so any
provided pair is used as is. -/
noncomputable def _triangulate_external_source
    (ms : List TMeas) (dir : Option (Int × Int)) : Option (ℝ × ℝ) :=
  if ms.length < 3 then none
  else
    let min_x := listMinR (ms.map (fun m => m.x))
    let max_x := listMaxR (ms.map (fun m => m.x))
    let min_y := listMinR (ms.map (fun m => m.y))
    let max_y := listMaxR (ms.map (fun m => m.y))
    match sortDesc (fun m => m.rssi) ms with
    | [] => none
    | t0 :: ts =>
      let top := (t0 :: ts).take 3
      let tw := (top.map (fun m => (10 : ℝ) ^ ((((m.rssi : ℝ)) + 100) / 20))).sum
      if tw = 0 then none
      else
        let cx := (top.map (fun m => m.x * (10 : ℝ) ^ ((((m.rssi : ℝ)) + 100) / 20))).sum / tw
        let cy := (top.map (fun m => m.y * (10 : ℝ) ^ ((((m.rssi : ℝ)) + 100) / 20))).sum / tw
        let dxy : Int × Int :=
          match dir with
          | some d => d
          | none =>
            let to_left := t0.x - min_x
            let to_right := max_x - t0.x
            let to_top := t0.y - min_y
            let to_bottom := max_y - t0.y
            let md := min (min (min to_left to_right) to_top) to_bottom
            if md = to_left then (-1, 0)
            else if md = to_right then (1, 0)
            else if md = to_top then (0, -1)
            else (0, 1)
        let off := offsetFor t0.rssi
        if dxy.1 < 0 then some (min_x - off, cy)
        else if 0 < dxy.1 then some (max_x + off, cy)
        else if dxy.2 < 0 then some (cx, min_y - off)
        else some (cx, max_y + off)

/-- The property that a point lies strictly outside the axis-aligned
bounding box of the measurement coordinates of a list. -/
noncomputable def strictlyOutsideBBox (p : ℝ × ℝ) (ms : List TMeas) : Prop :=
  p.1 < listMinR (ms.map (fun m => m.x)) ∨ listMaxR (ms.map (fun m => m.x)) < p.1 ∨
  p.2 < listMinR (ms.map (fun m => m.y)) ∨ listMaxR (ms.map (fun m => m.y)) < p.2

/-- np.median over the integer rssi values, as a rational: the middle
element of the ascending sort, or the mean of the two middle elements
for an even count (0 for the empty list, never reached). -/
def medianRssi (l : List Int) : ℚ :=
  let s := sortAscInt l
  let n := s.length
  if n = 0 then 0
  else if n % 2 = 1 then ((s.getD (n / 2) 0 : Int) : ℚ)
  else (((s.getD (n / 2 - 1) 0 : Int) : ℚ) + ((s.getD (n / 2) 0 : Int) : ℚ)) / 2

/-- _fits_propagation_pattern (heatmap_generator.py lines 952-975): no
measurement at pixel distance between 50 and 200 may witness the test
measurement exceeding the expected falloff by more than 10 dB; with no
such nearby measurement the check passes vacuously. -/
def _fits_propagation_pattern (m : TMeas) (all : List TMeas) : Prop :=
  ∀ m2 ∈ all,
    50 ≤ Real.sqrt ((m.x - m2.x) ^ 2 + (m.y - m2.y) ^ 2) →
    Real.sqrt ((m.x - m2.x) ^ 2 + (m.y - m2.y) ^ 2) ≤ 200 →
    (m.rssi : ℝ) ≤ (m2.rssi : ℝ) +
      20 * Real.logb 10 (Real.sqrt ((m.x - m2.x) ^ 2 + (m.y - m2.y) ^ 2) / 50) + 10

open Classical in
/-- The filtered list built by the loop of _filter_nlos_measurements
(lines 936-948): measurements at most 15 dB above the median are kept,
stronger ones only when they fit the propagation pattern.  The elif
guard of the source is always true in its branch. -/
noncomputable def nlosFiltered (ms : List TMeas) : List TMeas :=
  ms.filter
    (fun m =>
      if (m.rssi : ℚ) ≤ medianRssi (ms.map (fun t => t.rssi)) + 15 then true
      else if _fits_propagation_pattern m ms then true else false)

/-- _filter_nlos_measurements (heatmap_generator.py lines 919-950):
fewer than 5 measurements are returned unfiltered; otherwise the
filtered list is returned when it keeps at least 3 measurements and the
unfiltered list otherwise. -/
noncomputable def _filter_nlos_measurements (ms : List TMeas) : List TMeas :=
  if ms.length < 5 then ms
  else if 3 ≤ (nlosFiltered ms).length then nlosFiltered ms else ms

/-- The anchor points of _signal_to_color_gradient (heatmap_generator.py
lines 620-626). -/
def color_points : List (ℚ × Int × Int × Int) :=
  [(-20, (0, (255, 0))), (-45, (255, (255, 0))), (-60, (255, (165, 0))),
   (-75, (255, (0, 0))), (-90, (0, (0, 255)))]

/-- The bracketing loop of _signal_to_color_gradient (lines 632-650):
linear interpolation between the first pair of adjacent anchors that
brackets the value, with Python int() truncation per component, and the
blue fallback when no segment matched. -/
def interpSegs : List (ℚ × Int × Int × Int) → ℚ → Int × Int × Int
  | p1 :: p2 :: rest, s =>
    if p2.1 ≤ s ∧ s ≤ p1.1 then
      let factor : ℚ := if p1.1 = p2.1 then 0 else (s - p2.1) / (p1.1 - p2.1)
      (pyTrunc ((p2.2.1 : ℚ) + factor * ((p1.2.1 : ℚ) - (p2.2.1 : ℚ))),
       (pyTrunc ((p2.2.2.1 : ℚ) + factor * ((p1.2.2.1 : ℚ) - (p2.2.2.1 : ℚ))),
        pyTrunc ((p2.2.2.2 : ℚ) + factor * ((p1.2.2.2 : ℚ) - (p2.2.2.2 : ℚ)))))
    else interpSegs (p2 :: rest) s
  | _, _ => (0, (0, 255))

/-- _signal_to_color_gradient (heatmap_generator.py lines 608-650):
clamp the input to the range -95 to -15 and interpolate over the anchor
segments, returning an RGB triple. -/
def _signal_to_color_gradient (s : ℚ) : Int × Int × Int :=
  interpSegs color_points (max (-95) (min (-15) s))

/-! ### Helper lemmas about the string machinery of the device grouper -/

lemma splitColon_no_colon : ∀ (l : List Char), (∀ c ∈ l, c ≠ ':') → splitColon l = [l]
  | [], _ => rfl
  | c :: rest, h => by
    have hc : c ≠ ':' := h c (List.mem_cons_self c rest)
    have ih := splitColon_no_colon rest (fun x hx => h x (List.mem_cons_of_mem _ hx))
    unfold splitColon
    rw [if_neg hc, ih]

lemma splitColon_append : ∀ (x t : List Char), (∀ c ∈ x, c ≠ ':') →
    splitColon (x ++ ':' :: t) = x :: splitColon t
  | [], t, _ => by simp [splitColon]
  | c :: xs, t, h => by
    have hc : c ≠ ':' := h c (List.mem_cons_self c xs)
    have ih := splitColon_append xs t (fun a ha => h a (List.mem_cons_of_mem _ ha))
    simpa [splitColon, hc] using congrArg (fun r =>
      match r with
      | [] => [[c]]
      | g :: gs => (c :: g) :: gs) ih

lemma splitColon_joinWith : ∀ (parts : List (List Char)), parts ≠ [] →
    (∀ p ∈ parts, ∀ c ∈ p, c ≠ ':') → splitColon (joinWith ':' parts) = parts
  | [], h, _ => absurd rfl h
  | [x], _, hf => by
    simpa [joinWith] using splitColon_no_colon x (hf x (List.mem_singleton.2 rfl))
  | x :: y :: rest, _, hf => by
    have hx : ∀ c ∈ x, c ≠ ':' := hf x (List.mem_cons_self _ _)
    have ih := splitColon_joinWith (y :: rest) (List.cons_ne_nil _ _)
      (fun p hp => hf p (List.mem_cons_of_mem _ hp))
    show splitColon (x ++ ':' :: joinWith ':' (y :: rest)) = x :: y :: rest
    rw [splitColon_append x _ hx, ih]

lemma map_joinWith (f : Char → Char) (d : Char) :
    ∀ (parts : List (List Char)),
      (joinWith d parts).map f = joinWith (f d) (parts.map (List.map f))
  | [] => rfl
  | [x] => rfl
  | x :: y :: rest => by
    show (x ++ d :: joinWith d (y :: rest)).map f = _
    rw [List.map_append]
    show x.map f ++ f d :: (joinWith d (y :: rest)).map f = _
    rw [map_joinWith f d (y :: rest)]
    rfl

lemma joinWith_ne_nil (d : Char) (x y : List Char) (rest : List (List Char)) :
    joinWith d (x :: y :: rest) ≠ [] := by
  show x ++ d :: joinWith d (y :: rest) ≠ []
  cases x <;> simp

lemma map_id_of_free (g : Char → Char) (l : List Char) (h : ∀ c ∈ l, g c = c) :
    l.map g = l := by
  rw [List.map_congr_left h]
  simp

/-- The normal form of _get_device_id on a well-formed 6-octet bssid:
the middle four octets joined by colons and upper-cased. -/
lemma get_device_id_wellformed (o : List (List Char)) (d : Char)
    (hlen : o.length = 6) (hd : d = ':' ∨ d = '-')
    (hfree : ∀ p ∈ o, ∀ c ∈ p, c ≠ ':' ∧ c ≠ '-') :
    _get_device_id (joinWith d o) = (joinWith ':' ((o.drop 1).take 4)).map Char.toUpper := by
  obtain ⟨a, b, rest, rfl⟩ : ∃ a b rest, o = a :: b :: rest := by
    rcases o with _ | ⟨a, _ | ⟨b, rest⟩⟩ <;> simp_all
  have hne : joinWith d (a :: b :: rest) ≠ [] := joinWith_ne_nil d a b rest
  have hdc : dashToColon d = ':' := by
    rcases hd with rfl | rfl <;> simp [dashToColon]
  have hmap : (joinWith d (a :: b :: rest)).map dashToColon
      = joinWith ':' (a :: b :: rest) := by
    rw [map_joinWith, hdc]
    congr 1
    have hmm : ∀ p ∈ a :: b :: rest, p.map dashToColon = p := by
      intro p hp
      exact map_id_of_free _ p (fun c hc => by
        simp [dashToColon, (hfree p hp c hc).2])
    rw [List.map_congr_left hmm]
    simp
  have hsplit : splitColon ((joinWith d (a :: b :: rest)).map dashToColon)
      = a :: b :: rest := by
    rw [hmap]
    exact splitColon_joinWith _ (List.cons_ne_nil _ _)
      (fun p hp c hc => (hfree p hp c hc).1)
  unfold _get_device_id
  rw [if_neg hne]
  simp only [hsplit, hlen, if_pos]

/-- Claim C5: the device id of a well-formed 6-octet bssid is its middle
four octets, case-normalised, for either delimiter; two bssids whose
middle four octets agree up to case (in particular bssids differing
only in their first or last octet, their delimiter, or letter case)
produce the same device id. -/
theorem device_id_grouping_stable (o1 o2 : List (List Char)) (d1 d2 : Char)
    (hl1 : o1.length = 6) (hl2 : o2.length = 6)
    (hd1 : d1 = ':' ∨ d1 = '-') (hd2 : d2 = ':' ∨ d2 = '-')
    (hf1 : ∀ p ∈ o1, ∀ c ∈ p, c ≠ ':' ∧ c ≠ '-')
    (hf2 : ∀ p ∈ o2, ∀ c ∈ p, c ≠ ':' ∧ c ≠ '-')
    (hmid : ((o1.drop 1).take 4).map (List.map Char.toUpper)
          = ((o2.drop 1).take 4).map (List.map Char.toUpper)) :
    _get_device_id (joinWith d1 o1) = (joinWith ':' ((o1.drop 1).take 4)).map Char.toUpper
    ∧ _get_device_id (joinWith d1 o1) = _get_device_id (joinWith d2 o2) := by
  have h1 := get_device_id_wellformed o1 d1 hl1 hd1 hf1
  have h2 := get_device_id_wellformed o2 d2 hl2 hd2 hf2
  refine ⟨h1, ?_⟩
  rw [h1, h2, map_joinWith, map_joinWith]
  have : Char.toUpper ':' = ':' := by decide
  rw [this, hmid]

/-- Concrete bssid octets for the C5 witness. -/
def o1w : List (List Char) :=
  [['a', 'a'], ['b', 'b'], ['c', 'c'], ['d', 'd'], ['e', 'e'], ['f', 'f']]

/-- Octets differing from o1w in the first and last position and in
case, for the C5 witness. -/
def o2w : List (List Char) :=
  [['0', '1'], ['B', 'B'], ['C', 'C'], ['D', 'D'], ['E', 'E'], ['0', '2']]

theorem device_id_grouping_stable_witness :
    o1w.length = 6 ∧
    (_get_device_id (joinWith ':' o1w)
        = (joinWith ':' ((o1w.drop 1).take 4)).map Char.toUpper
      ∧ _get_device_id (joinWith ':' o1w) = _get_device_id (joinWith '-' o2w)) :=
  ⟨by decide,
    device_id_grouping_stable o1w o2w ':' '-' (by decide) (by decide) (Or.inl rfl)
      (Or.inr rfl) (by decide) (by decide) (by decide)⟩

/-! ### Helper lemmas about association lists and device grouping -/

lemma mem_upsert {κ ν : Type} [DecidableEq κ] (k : κ) (v : ν)
    (l : List (κ × List ν)) (p : κ × List ν) (hp : p ∈ upsert k v l) :
    p ∈ l ∨ (p.1 = k ∧ (p.2 = [v] ∨ ∃ vs, (k, vs) ∈ l ∧ p.2 = vs ++ [v])) := by
  induction l with
  | nil =>
    refine Or.inr ?_
    rw [upsert] at hp
    rcases List.mem_singleton.1 hp with rfl
    exact ⟨rfl, Or.inl rfl⟩
  | cons e rest ih =>
    obtain ⟨k2, vs⟩ := e
    by_cases hk : k = k2
    · subst hk
      rw [upsert, if_pos rfl] at hp
      rcases List.mem_cons.1 hp with hp | hp
      · subst hp
        exact Or.inr ⟨rfl, Or.inr ⟨vs, List.mem_cons_self _ _, rfl⟩⟩
      · exact Or.inl (List.mem_cons_of_mem _ hp)
    · rw [upsert, if_neg hk] at hp
      rcases List.mem_cons.1 hp with hp | hp
      · exact Or.inl (by rw [hp]; exact List.mem_cons_self _ _)
      · rcases ih hp with h | ⟨h1, h2⟩
        · exact Or.inl (List.mem_cons_of_mem _ h)
        · refine Or.inr ⟨h1, ?_⟩
          rcases h2 with h2 | ⟨ws, hws, hw2⟩
          · exact Or.inl h2
          · exact Or.inr ⟨ws, List.mem_cons_of_mem _ hws, hw2⟩

lemma alistGet_upsert_self {κ ν : Type} [DecidableEq κ] (k : κ) (v : ν)
    (l : List (κ × List ν)) : alistGet k (upsert k v l) = alistGet k l ++ [v] := by
  induction l with
  | nil => simp [upsert, alistGet]
  | cons e rest ih =>
    obtain ⟨k2, vs⟩ := e
    by_cases hk : k = k2
    · subst hk
      simp [upsert, alistGet]
    · simp [upsert, alistGet, hk, ih]

lemma alistGet_upsert_ne {κ ν : Type} [DecidableEq κ] (k k2 : κ) (v : ν)
    (hk : k ≠ k2) (l : List (κ × List ν)) :
    alistGet k (upsert k2 v l) = alistGet k l := by
  induction l with
  | nil => simp [upsert, alistGet, hk]
  | cons e rest ih =>
    obtain ⟨k3, vs⟩ := e
    by_cases hk3 : k2 = k3
    · subst hk3
      simp [upsert, alistGet, hk]
    · by_cases hkk : k = k3
      · subst hkk
        simp [upsert, alistGet, hk3]
      · simp [upsert, alistGet, hk3, hkk, ih]

lemma mem_of_alistGet {κ ν : Type} [DecidableEq κ] (k : κ)
    (l : List (κ × List ν)) (h : alistGet k l ≠ []) : (k, alistGet k l) ∈ l := by
  induction l with
  | nil => exact absurd rfl h
  | cons e rest ih =>
    obtain ⟨k2, vs⟩ := e
    by_cases hk : k = k2
    · subst hk
      rw [alistGet, if_pos rfl] at h ⊢
      exact List.mem_cons_self _ _
    · rw [alistGet, if_neg hk] at h ⊢
      exact List.mem_cons_of_mem _ (ih h)

lemma groupStep_skip (acc : List (List Char × List APData)) (n : APData)
    (hn : _get_device_id n.bssid = []) : groupStep acc n = acc := by
  rw [groupStep, if_pos hn]

lemma groupStep_app (acc : List (List Char × List APData)) (n : APData)
    (hn : _get_device_id n.bssid ≠ []) :
    groupStep acc n = upsert (_get_device_id n.bssid) n acc := by
  rw [groupStep, if_neg hn]

lemma alistGet_group_aux (d : List Char) (hd : d ≠ []) (nets : List APData) :
    ∀ (acc : List (List Char × List APData)),
      alistGet d (nets.foldl groupStep acc)
      = alistGet d acc ++ nets.filter (fun n => decide (_get_device_id n.bssid = d)) := by
  induction nets with
  | nil => intro acc; simp
  | cons n ns ih =>
    intro acc
    rw [List.foldl_cons, List.filter_cons]
    by_cases hn : _get_device_id n.bssid = []
    · have hnd : ¬(_get_device_id n.bssid = d) := fun h => hd (h ▸ hn)
      rw [groupStep_skip acc n hn, ih acc]
      simp [hnd]
    · by_cases hnd : _get_device_id n.bssid = d
      · rw [groupStep_app acc n hn, ih _, hnd, alistGet_upsert_self]
        simp [hnd, List.append_assoc]
      · rw [groupStep_app acc n hn, ih _,
          alistGet_upsert_ne d _ n (fun h => hnd h.symm)]
        simp [hnd]

/-- The group of a device id collects exactly the measurements carrying
that device id, in order. -/
lemma alistGet_group (d : List Char) (hd : d ≠ []) (nets : List APData) :
    alistGet d (_group_networks_by_device nets)
      = nets.filter (fun n => decide (_get_device_id n.bssid = d)) := by
  have h := alistGet_group_aux d hd nets []
  rw [_group_networks_by_device]
  rw [h]
  rfl

lemma group_invariant_aux (nets : List APData) :
    ∀ (acc : List (List Char × List APData)),
      (∀ p ∈ acc, p.1 ≠ [] ∧ ∀ n ∈ p.2, _get_device_id n.bssid = p.1) →
      ∀ p ∈ nets.foldl groupStep acc,
        p.1 ≠ [] ∧ ∀ n ∈ p.2, _get_device_id n.bssid = p.1 := by
  induction nets with
  | nil => intro acc hacc; simpa using hacc
  | cons n ns ih =>
    intro acc hacc p hp
    rw [List.foldl_cons] at hp
    by_cases hn : _get_device_id n.bssid = []
    · rw [groupStep_skip acc n hn] at hp
      exact ih acc hacc p hp
    · rw [groupStep_app acc n hn] at hp
      refine ih _ ?_ p hp
      intro q hq
      rcases mem_upsert _ n _ q hq with h | ⟨h1, h2⟩
      · exact hacc q h
      · refine ⟨h1 ▸ hn, ?_⟩
        intro m hm
        rcases h2 with h2 | ⟨vs, hvs, hv2⟩
        · rw [h2] at hm
          rw [List.mem_singleton.1 hm, h1]
        · rw [hv2] at hm
          rcases List.mem_append.1 hm with hm | hm
          · rw [h1]
            exact (hacc (_, vs) hvs).2 m hm
          · rw [List.mem_singleton.1 hm, h1]

/-- Every entry of the device grouping has a non-empty key, and every
measurement listed under a key carries exactly that device id. -/
lemma group_invariant (nets : List APData) :
    ∀ p ∈ _group_networks_by_device nets,
      p.1 ≠ [] ∧ ∀ n ∈ p.2, _get_device_id n.bssid = p.1 :=
  group_invariant_aux nets [] (by simp)

/-- Claim C8: a bssid that does not split into exactly 6 octets yields
the empty device id, and no measurement carrying such a bssid ever
appears in any group of the device grouping. -/
theorem malformed_bssid_excluded (bssid : List Char)
    (h : (splitColon (bssid.map dashToColon)).length ≠ 6) :
    _get_device_id bssid = [] ∧
    ∀ (nets : List APData) (p : List Char × List APData),
      p ∈ _group_networks_by_device nets → ∀ n ∈ p.2, n.bssid ≠ bssid := by
  have hid : _get_device_id bssid = [] := by
    unfold _get_device_id
    by_cases hb : bssid = []
    · rw [if_pos hb]
    · rw [if_neg hb]
      simp [h]
  refine ⟨hid, ?_⟩
  intro nets p hp n hn hb
  have hinv := group_invariant nets p hp
  have hdev := hinv.2 n hn
  rw [hb, hid] at hdev
  exact hinv.1 hdev.symm

/-- A malformed bssid with only three octets, for the C8 witness. -/
def badBssid : List Char := ['a', 'a', ':', 'b', 'b', ':', 'c', 'c']

theorem malformed_bssid_excluded_witness :
    (splitColon (badBssid.map dashToColon)).length ≠ 6 ∧
    _get_device_id badBssid = [] :=
  ⟨by decide, (malformed_bssid_excluded badBssid (by decide)).1⟩

/-! ### Helper lemmas about sorting, pair enumeration and the overlap analyzer -/

lemma mem_insertDesc (key : α → Int) (x : α) (l : List α) (a : α) :
    a ∈ insertDesc key x l ↔ a = x ∨ a ∈ l := by
  induction l with
  | nil => simp [insertDesc]
  | cons y ys ih =>
    rw [insertDesc]
    by_cases h : key y ≤ key x
    · rw [if_pos h]
      simp
    · rw [if_neg h]
      simp only [List.mem_cons, ih]
      tauto

lemma mem_sortDesc (key : α → Int) (l : List α) (a : α) :
    a ∈ sortDesc key l ↔ a ∈ l := by
  induction l with
  | nil => simp [sortDesc]
  | cons x xs ih =>
    rw [sortDesc, mem_insertDesc]
    simp [ih]

lemma length_insertDesc (key : α → Int) (x : α) (l : List α) :
    (insertDesc key x l).length = l.length + 1 := by
  induction l with
  | nil => rfl
  | cons y ys ih =>
    rw [insertDesc]
    by_cases h : key y ≤ key x
    · rw [if_pos h]
      rfl
    · rw [if_neg h]
      simp [ih]

lemma length_sortDesc (key : α → Int) (l : List α) :
    (sortDesc key l).length = l.length := by
  induction l with
  | nil => rfl
  | cons x xs ih =>
    rw [sortDesc, length_insertDesc, ih]
    rfl

lemma mem_pairsOf_of_mem (l : List α) (x y : α) (hx : x ∈ l) (hy : y ∈ l)
    (hxy : x ≠ y) : (x, y) ∈ pairsOf l ∨ (y, x) ∈ pairsOf l := by
  induction l with
  | nil => cases hx
  | cons z zs ih =>
    rcases List.mem_cons.1 hx with rfl | hx2
    · have hy2 : y ∈ zs := by
        rcases List.mem_cons.1 hy with h | h
        · exact absurd h.symm hxy
        · exact h
      exact Or.inl (by
        rw [pairsOf]
        exact List.mem_append_left _ (List.mem_map.2 ⟨y, hy2, rfl⟩))
    · rcases List.mem_cons.1 hy with rfl | hy2
      · exact Or.inr (by
          rw [pairsOf]
          exact List.mem_append_left _ (List.mem_map.2 ⟨x, hx2, rfl⟩))
      · rcases ih hx2 hy2 with h | h
        · exact Or.inl (by rw [pairsOf]; exact List.mem_append_right _ h)
        · exact Or.inr (by rw [pairsOf]; exact List.mem_append_right _ h)

lemma pairsOf_subset (l : List α) (p : α × α) (hp : p ∈ pairsOf l) :
    p.1 ∈ l ∧ p.2 ∈ l := by
  induction l with
  | nil => cases hp
  | cons z zs ih =>
    rw [pairsOf] at hp
    rcases List.mem_append.1 hp with h | h
    · obtain ⟨y, hy, rfl⟩ := List.mem_map.1 h
      exact ⟨List.mem_cons_self _ _, List.mem_cons_of_mem _ hy⟩
    · exact ⟨List.mem_cons_of_mem _ (ih h).1, List.mem_cons_of_mem _ (ih h).2⟩

lemma chanStep_skip (acc : List (Int × List (String × Int))) (n : APData)
    (hn : ¬(n.channel ≤ 14 ∧ -70 < n.signal_strength ∧ n.ssid ≠ "{Hidden}")) :
    chanStep acc n = acc := by
  rw [chanStep, if_neg hn]

lemma chanStep_app (acc : List (Int × List (String × Int))) (n : APData)
    (hn : n.channel ≤ 14 ∧ -70 < n.signal_strength ∧ n.ssid ≠ "{Hidden}") :
    chanStep acc n = upsert n.channel (n.ssid, n.signal_strength) acc := by
  rw [chanStep, if_pos hn]

lemma alistGet_chanMap_aux (ch : Int) (nets : List APData) :
    ∀ (acc : List (Int × List (String × Int))),
      alistGet ch (nets.foldl chanStep acc)
      = alistGet ch acc ++
        ((nets.filter (fun n =>
            decide ((n.channel ≤ 14 ∧ -70 < n.signal_strength ∧ n.ssid ≠ "{Hidden}")
              ∧ n.channel = ch))).map (fun n => (n.ssid, n.signal_strength))) := by
  induction nets with
  | nil => intro acc; simp
  | cons n ns ih =>
    intro acc
    rw [List.foldl_cons, List.filter_cons]
    by_cases hq : n.channel ≤ 14 ∧ -70 < n.signal_strength ∧ n.ssid ≠ "{Hidden}"
    · by_cases hch : n.channel = ch
      · have hpred : (decide ((n.channel ≤ 14 ∧ -70 < n.signal_strength ∧
            n.ssid ≠ "{Hidden}") ∧ n.channel = ch)) = true := by
          simp only [decide_eq_true_eq]
          exact ⟨hq, hch⟩
        rw [if_pos hpred, chanStep_app acc n hq, ih _, hch, alistGet_upsert_self]
        simp [List.append_assoc]
      · have hpred : (decide ((n.channel ≤ 14 ∧ -70 < n.signal_strength ∧
            n.ssid ≠ "{Hidden}") ∧ n.channel = ch)) = false := by
          simp [hch]
        rw [if_neg (by simp [hpred]), chanStep_app acc n hq, ih _,
          alistGet_upsert_ne ch _ _ (fun h => hch h.symm)]
    · have hpred : (decide ((n.channel ≤ 14 ∧ -70 < n.signal_strength ∧
          n.ssid ≠ "{Hidden}") ∧ n.channel = ch)) = false := by
        simp only [decide_eq_false_iff_not]
        exact fun h => hq h.1
      rw [if_neg (by simp [hpred]), chanStep_skip acc n hq, ih acc]

/-- The per-channel entry list of the inner overlap dictionary collects
exactly the qualifying measurements on that channel, in order. -/
lemma alistGet_chanMap (ch : Int) (nets : List APData) :
    alistGet ch (chanMap nets)
      = ((nets.filter (fun n =>
          decide ((n.channel ≤ 14 ∧ -70 < n.signal_strength ∧ n.ssid ≠ "{Hidden}")
            ∧ n.channel = ch))).map (fun n => (n.ssid, n.signal_strength))) := by
  have h := alistGet_chanMap_aux ch nets []
  rw [chanMap]
  rw [h]
  rfl

lemma chanMap_invariant_aux (nets : List APData) :
    ∀ (acc : List (Int × List (String × Int))),
      (∀ p ∈ acc, ∀ sr ∈ p.2, sr.1 ≠ "{Hidden}") →
      ∀ p ∈ nets.foldl chanStep acc, ∀ sr ∈ p.2, sr.1 ≠ "{Hidden}" := by
  induction nets with
  | nil => intro acc hacc; simpa using hacc
  | cons n ns ih =>
    intro acc hacc p hp
    rw [List.foldl_cons] at hp
    by_cases hq : n.channel ≤ 14 ∧ -70 < n.signal_strength ∧ n.ssid ≠ "{Hidden}"
    · rw [chanStep_app acc n hq] at hp
      refine ih _ ?_ p hp
      intro q hq2 sr hsr
      rcases mem_upsert _ _ _ q hq2 with h | ⟨h1, h2⟩
      · exact hacc q h sr hsr
      · rcases h2 with h2 | ⟨vs, hvs, hv2⟩
        · rw [h2] at hsr
          rw [List.mem_singleton.1 hsr]
          exact hq.2.2
        · rw [hv2] at hsr
          rcases List.mem_append.1 hsr with hm | hm
          · exact hacc (_, vs) hvs sr hm
          · rw [List.mem_singleton.1 hm]
            exact hq.2.2
    · rw [chanStep_skip acc n hq] at hp
      exact ih acc hacc p hp

/-- No hidden ssid ever enters the inner overlap dictionary. -/
lemma chanMap_invariant (nets : List APData) :
    ∀ p ∈ chanMap nets, ∀ sr ∈ p.2, sr.1 ≠ "{Hidden}" :=
  chanMap_invariant_aux nets [] (by simp)

lemma mem_strong24 (nets : List APData) (e : List Char × List (Int × List (String × Int)))
    (he : e ∈ strong24ByDevice nets) :
    ∃ dn, (e.1, dn) ∈ _group_networks_by_device nets ∧ e.2 = chanMap dn := by
  obtain ⟨a, ha, hfa⟩ := List.mem_filterMap.1 he
  by_cases hm : chanMap a.2 = []
  · simp [hm] at hfa
  · have heq : (a.1, chanMap a.2) = e := by simpa [hm] using hfa
    subst heq
    exact ⟨a.2, ha, rfl⟩

lemma strong24_mem_intro (nets : List APData) (d : List Char) (dn : List APData)
    (h : (d, dn) ∈ _group_networks_by_device nets) (hne : chanMap dn ≠ []) :
    (d, chanMap dn) ∈ strong24ByDevice nets :=
  List.mem_filterMap.2 ⟨(d, dn), h, by
    show (if chanMap dn = [] then none else some (d, chanMap dn)) = some (d, chanMap dn)
    rw [if_neg hne]⟩

lemma channels_overlap_iff (c1 c2 : Int) :
    _channels_overlap c1 c2 = true ↔ (c1 ≤ 14 ∧ c2 ≤ 14 ∧ |c1 - c2| < 5) := by
  unfold _channels_overlap
  split_ifs with h
  · simp only [Bool.false_eq_true, false_iff]
    intro hc
    rcases h with h | h
    · omega
    · omega
  · simp only [decide_eq_true_eq, abs_lt]
    push_neg at h
    constructor
    · intro hc
      exact ⟨h.1, h.2, by omega⟩
    · intro hc
      omega

/-- Both cross-interference raw entries produced by the overlap pair
loop, for a qualifying pair of measurements from distinct devices on
distinct overlapping 2.4 GHz channels. -/
lemma overlapRaw_entry (nets : List APData) (a b : APData)
    (ha : a ∈ nets) (hb : b ∈ nets)
    (hdeva : _get_device_id a.bssid ≠ []) (hdevb : _get_device_id b.bssid ≠ [])
    (hdist : _get_device_id a.bssid ≠ _get_device_id b.bssid)
    (hcha : a.channel ≤ 14) (hchb : b.channel ≤ 14)
    (hsiga : -70 < a.signal_strength) (hsigb : -70 < b.signal_strength)
    (hhida : a.ssid ≠ "{Hidden}") (hhidb : b.ssid ≠ "{Hidden}")
    (hchne : a.channel ≠ b.channel) (hov : |a.channel - b.channel| < 5) :
    (a.channel, (b.channel, (b.ssid, b.signal_strength))) ∈ overlapRaw nets ∧
    (b.channel, (a.channel, (a.ssid, a.signal_strength))) ∈ overlapRaw nets := by
  have hqa : a.channel ≤ 14 ∧ -70 < a.signal_strength ∧ a.ssid ≠ "{Hidden}" :=
    ⟨hcha, hsiga, hhida⟩
  have hqb : b.channel ≤ 14 ∧ -70 < b.signal_strength ∧ b.ssid ≠ "{Hidden}" :=
    ⟨hchb, hsigb, hhidb⟩
  have hga : a ∈ alistGet (_get_device_id a.bssid) (_group_networks_by_device nets) := by
    rw [alistGet_group _ hdeva nets]
    exact List.mem_filter.2 ⟨ha, by simp⟩
  have hgb : b ∈ alistGet (_get_device_id b.bssid) (_group_networks_by_device nets) := by
    rw [alistGet_group _ hdevb nets]
    exact List.mem_filter.2 ⟨hb, by simp⟩
  have hgmema : (_get_device_id a.bssid,
      alistGet (_get_device_id a.bssid) (_group_networks_by_device nets))
      ∈ _group_networks_by_device nets :=
    mem_of_alistGet _ _ (List.ne_nil_of_mem hga)
  have hgmemb : (_get_device_id b.bssid,
      alistGet (_get_device_id b.bssid) (_group_networks_by_device nets))
      ∈ _group_networks_by_device nets :=
    mem_of_alistGet _ _ (List.ne_nil_of_mem hgb)
  have hca : (a.ssid, a.signal_strength)
      ∈ alistGet a.channel (chanMap (alistGet (_get_device_id a.bssid)
        (_group_networks_by_device nets))) := by
    rw [alistGet_chanMap]
    exact List.mem_map.2 ⟨a, List.mem_filter.2 ⟨hga, by simp [hqa]⟩, rfl⟩
  have hcb : (b.ssid, b.signal_strength)
      ∈ alistGet b.channel (chanMap (alistGet (_get_device_id b.bssid)
        (_group_networks_by_device nets))) := by
    rw [alistGet_chanMap]
    exact List.mem_map.2 ⟨b, List.mem_filter.2 ⟨hgb, by simp [hqb]⟩, rfl⟩
  have hchmema : (a.channel, alistGet a.channel (chanMap (alistGet (_get_device_id a.bssid)
      (_group_networks_by_device nets))))
      ∈ chanMap (alistGet (_get_device_id a.bssid) (_group_networks_by_device nets)) :=
    mem_of_alistGet _ _ (List.ne_nil_of_mem hca)
  have hchmemb : (b.channel, alistGet b.channel (chanMap (alistGet (_get_device_id b.bssid)
      (_group_networks_by_device nets))))
      ∈ chanMap (alistGet (_get_device_id b.bssid) (_group_networks_by_device nets)) :=
    mem_of_alistGet _ _ (List.ne_nil_of_mem hcb)
  have hstra := strong24_mem_intro nets _ _ hgmema (List.ne_nil_of_mem hchmema)
  have hstrb := strong24_mem_intro nets _ _ hgmemb (List.ne_nil_of_mem hchmemb)
  have hentne : (_get_device_id a.bssid,
      chanMap (alistGet (_get_device_id a.bssid) (_group_networks_by_device nets)))
      ≠ (_get_device_id b.bssid,
      chanMap (alistGet (_get_device_id b.bssid) (_group_networks_by_device nets))) :=
    fun h => hdist (congrArg Prod.fst h)
  have hovab : _channels_overlap a.channel b.channel = true :=
    (channels_overlap_iff _ _).2 ⟨hcha, hchb, hov⟩
  have hovba : _channels_overlap b.channel a.channel = true :=
    (channels_overlap_iff _ _).2 ⟨hchb, hcha, by rw [abs_sub_comm]; exact hov⟩
  rcases mem_pairsOf_of_mem _ _ _ hstra hstrb hentne with hpair | hpair
  · constructor
    · refine List.mem_flatMap.2 ⟨_, hpair, ?_⟩
      refine List.mem_flatMap.2 ⟨_, hchmema, ?_⟩
      refine List.mem_flatMap.2 ⟨_, hchmemb, ?_⟩
      rw [if_pos ⟨hchne, hovab⟩]
      refine List.mem_append_left _ ?_
      exact List.mem_filterMap.2 ⟨(b.ssid, b.signal_strength), hcb, by
        rw [if_pos hsigb]⟩
    · refine List.mem_flatMap.2 ⟨_, hpair, ?_⟩
      refine List.mem_flatMap.2 ⟨_, hchmema, ?_⟩
      refine List.mem_flatMap.2 ⟨_, hchmemb, ?_⟩
      rw [if_pos ⟨hchne, hovab⟩]
      refine List.mem_append_right _ ?_
      exact List.mem_filterMap.2 ⟨(a.ssid, a.signal_strength), hca, by
        rw [if_pos hsiga]⟩
  · constructor
    · refine List.mem_flatMap.2 ⟨_, hpair, ?_⟩
      refine List.mem_flatMap.2 ⟨_, hchmemb, ?_⟩
      refine List.mem_flatMap.2 ⟨_, hchmema, ?_⟩
      rw [if_pos ⟨fun h => hchne h.symm, hovba⟩]
      refine List.mem_append_right _ ?_
      exact List.mem_filterMap.2 ⟨(b.ssid, b.signal_strength), hcb, by
        rw [if_pos hsigb]⟩
    · refine List.mem_flatMap.2 ⟨_, hpair, ?_⟩
      refine List.mem_flatMap.2 ⟨_, hchmemb, ?_⟩
      refine List.mem_flatMap.2 ⟨_, hchmema, ?_⟩
      rw [if_pos ⟨fun h => hchne h.symm, hovba⟩]
      refine List.mem_append_left _ ?_
      exact List.mem_filterMap.2 ⟨(a.ssid, a.signal_strength), hca, by
        rw [if_pos hsiga]⟩

lemma mem_analyze_overlap_intro (nets : List APData) (ch : Int)
    (e : Int × String × Int) (he : (ch, e) ∈ overlapRaw nets) :
    e ∈ _analyze_overlap_interference nets ch := by
  unfold _analyze_overlap_interference
  rw [mem_sortDesc, List.mem_dedup]
  exact List.mem_map.2 ⟨(ch, e), List.mem_filter.2 ⟨he, by simp⟩, rfl⟩

/-- Claim C2 (amended): the overlap predicate is exactly the band-14
cutoff with the within-5 rule, and every qualifying pair of
measurements from two distinct well-formed devices on distinct
overlapping 2.4 GHz channels, both above the -70 dBm threshold and not
hidden, yields cross-interference entries in both directions. -/
theorem overlap_cross_interference (nets : List APData) (a b : APData)
    (ha : a ∈ nets) (hb : b ∈ nets)
    (hdeva : _get_device_id a.bssid ≠ []) (hdevb : _get_device_id b.bssid ≠ [])
    (hdist : _get_device_id a.bssid ≠ _get_device_id b.bssid)
    (hcha : a.channel ≤ 14) (hchb : b.channel ≤ 14)
    (hsiga : -70 < a.signal_strength) (hsigb : -70 < b.signal_strength)
    (hhida : a.ssid ≠ "{Hidden}") (hhidb : b.ssid ≠ "{Hidden}")
    (hchne : a.channel ≠ b.channel) (hov : |a.channel - b.channel| < 5) :
    (∀ c1 c2 : Int, _channels_overlap c1 c2 = true ↔ (c1 ≤ 14 ∧ c2 ≤ 14 ∧ |c1 - c2| < 5)) ∧
    (b.channel, (b.ssid, b.signal_strength)) ∈ _analyze_overlap_interference nets a.channel ∧
    (a.channel, (a.ssid, a.signal_strength)) ∈ _analyze_overlap_interference nets b.channel := by
  obtain ⟨h1, h2⟩ := overlapRaw_entry nets a b ha hb hdeva hdevb hdist hcha hchb
    hsiga hsigb hhida hhidb hchne hov
  exact ⟨channels_overlap_iff,
    mem_analyze_overlap_intro nets a.channel _ h1,
    mem_analyze_overlap_intro nets b.channel _ h2⟩

/-- First measurement of the C2 witness and counterexample. -/
def aC2 : APData :=
  ⟨"A", ['a', 'a', ':', 'b', 'b', ':', 'c', 'c', ':', 'd', 'd', ':', 'e', 'e', ':', '0', '1'],
    6, -50, "2.4 GHz"⟩

/-- Second measurement of the C2 witness (distinct device, channel 3). -/
def bC2 : APData :=
  ⟨"B", ['1', '1', ':', '2', '2', ':', '3', '3', ':', '4', '4', ':', '5', '5', ':', '6', '6'],
    3, -40, "2.4 GHz"⟩

/-- Second measurement of the C2 counterexample (distinct device, same
channel 6 as aC2). -/
def cC2 : APData :=
  ⟨"B", ['1', '1', ':', '2', '2', ':', '3', '3', ':', '4', '4', ':', '5', '5', ':', '6', '6'],
    6, -40, "2.4 GHz"⟩

theorem overlap_cross_interference_witness :
    aC2 ∈ [aC2, bC2] ∧
    ((∀ c1 c2 : Int, _channels_overlap c1 c2 = true ↔ (c1 ≤ 14 ∧ c2 ≤ 14 ∧ |c1 - c2| < 5)) ∧
      (bC2.channel, (bC2.ssid, bC2.signal_strength))
        ∈ _analyze_overlap_interference [aC2, bC2] aC2.channel ∧
      (aC2.channel, (aC2.ssid, aC2.signal_strength))
        ∈ _analyze_overlap_interference [aC2, bC2] bC2.channel) :=
  ⟨by decide,
    overlap_cross_interference [aC2, bC2] aC2 bC2 (by decide) (by decide) (by decide)
      (by decide) (by decide) (by decide) (by decide) (by decide) (by decide)
      (by decide) (by decide) (by decide) (by decide)⟩

/-- Claim C2 counterexample: two distinct devices on the same 2.4 GHz
channel 6, both above the threshold and not hidden; their channels
overlap according to _channels_overlap, yet the overlap table records
no entry at all for channel 6, because the code additionally requires
the channels to differ. -/
theorem overlap_equal_channels_counterexample :
    _channels_overlap aC2.channel cC2.channel = true ∧
    _get_device_id aC2.bssid ≠ [] ∧ _get_device_id cC2.bssid ≠ [] ∧
    _get_device_id aC2.bssid ≠ _get_device_id cC2.bssid ∧
    aC2.channel ≤ 14 ∧ cC2.channel ≤ 14 ∧
    -70 < aC2.signal_strength ∧ -70 < cC2.signal_strength ∧
    aC2.ssid ≠ "{Hidden}" ∧ cC2.ssid ≠ "{Hidden}" ∧
    _analyze_overlap_interference [aC2, cC2] 6 = [] := by
  decide

/-! ### Hidden-network exclusion -/

lemma alistKeys_upsert_mem {κ ν : Type} [DecidableEq κ] (k k2 : κ) (v : ν)
    (l : List (κ × List ν)) (h : k2 ∈ (upsert k v l).map Prod.fst) :
    k2 = k ∨ k2 ∈ l.map Prod.fst := by
  induction l with
  | nil =>
    rw [upsert] at h
    rcases List.mem_singleton.1 h with rfl
    exact Or.inl rfl
  | cons e rest ih =>
    obtain ⟨k3, vs⟩ := e
    by_cases hk : k = k3
    · subst hk
      rw [upsert, if_pos rfl] at h
      exact Or.inr h
    · rw [upsert, if_neg hk] at h
      rcases List.mem_cons.1 h with h2 | h2
      · exact Or.inr (by rw [h2]; exact List.mem_cons_self _ _)
      · rcases ih h2 with h3 | h3
        · exact Or.inl h3
        · exact Or.inr (List.mem_cons_of_mem _ h3)

lemma bySsid_keys (entries : List (String × Int)) (k : String) :
    ∀ (acc : List (String × List Int)),
      k ∈ (entries.foldl (fun acc sr => upsert sr.1 sr.2 acc) acc).map Prod.fst →
      k ∈ acc.map Prod.fst ∨ k ∈ entries.map Prod.fst := by
  induction entries with
  | nil => intro acc h; exact Or.inl h
  | cons e es ih =>
    intro acc h
    rw [List.foldl_cons] at h
    rcases ih _ h with h2 | h2
    · rcases alistKeys_upsert_mem e.1 k e.2 acc h2 with h3 | h3
      · exact Or.inr (by rw [h3]; exact List.mem_map.2 ⟨e, List.mem_cons_self _ _, rfl⟩)
      · exact Or.inl h3
    · exact Or.inr (by
        rw [List.map_cons]
        exact List.mem_cons_of_mem _ h2)

lemma strong_raw_ssid (nets : List APData) (prefixes : List String)
    (x : Int × String × Int)
    (hx : x ∈ (_group_networks_by_device nets).flatMap
      (fun e =>
        if isTargetDevice prefixes e.2 then []
        else
          e.2.filterMap
            (fun n =>
              if n.ssid ≠ "{Hidden}" ∧ -70 < n.signal_strength then
                some (n.channel, (n.ssid, n.signal_strength))
              else none))) :
    x.2.1 ≠ "{Hidden}" := by
  obtain ⟨g, hg, hbody⟩ := List.mem_flatMap.1 hx
  by_cases ht : isTargetDevice prefixes g.2
  · rw [if_pos ht] at hbody
    cases hbody
  · rw [if_neg ht] at hbody
    obtain ⟨n, hn, hf⟩ := List.mem_filterMap.1 hbody
    by_cases hc : n.ssid ≠ "{Hidden}" ∧ -70 < n.signal_strength
    · rw [if_pos hc] at hf
      rcases Option.some.inj hf with rfl
      exact hc.1
    · rw [if_neg hc] at hf
      cases hf

lemma bySsid_output_ssid (entries : List (String × Int))
    (hents : ∀ x ∈ entries, x.1 ≠ "{Hidden}") (e : String × Int)
    (he : e ∈ sortDesc (fun t => t.2)
      ((entries.foldl (fun acc sr => upsert sr.1 sr.2 acc) []).map
        (fun q => (q.1, maxIntD q.2)))) :
    e.1 ≠ "{Hidden}" := by
  rw [mem_sortDesc] at he
  obtain ⟨p, hp, hpe⟩ := List.mem_map.1 he
  have hk : p.1 ∈ (entries.foldl (fun acc sr => upsert sr.1 sr.2 acc)
      ([] : List (String × List Int))).map Prod.fst :=
    List.mem_map.2 ⟨p, hp, rfl⟩
  rcases bySsid_keys entries p.1 [] hk with h | h
  · cases h
  · obtain ⟨q, hq, hqe⟩ := List.mem_map.1 h
    have hqs := hents q hq
    rw [← hpe]
    rw [← hqe]
    exact hqs

/-- No hidden ssid ever appears among the strong interferers. -/
lemma strong_interferers_ssid (nets : List APData) (prefixes : List String)
    (ch : Int) (e : String × Int) (he : e ∈ _find_strong_interferers nets prefixes ch) :
    e.1 ≠ "{Hidden}" := by
  simp only [_find_strong_interferers] at he
  refine bySsid_output_ssid _ (fun x hx => ?_) e he
  obtain ⟨r, hr, hre⟩ := List.mem_map.1 hx
  have hraw := strong_raw_ssid nets prefixes r (List.mem_filter.1 hr).1
  rw [← hre]
  exact hraw

lemma overlapRaw_ssid (nets : List APData) (x : Int × Int × String × Int)
    (hx : x ∈ overlapRaw nets) : x.2.2.1 ≠ "{Hidden}" := by
  obtain ⟨pq, hpq, hb1⟩ := List.mem_flatMap.1 hx
  obtain ⟨c1, hc1, hb2⟩ := List.mem_flatMap.1 hb1
  obtain ⟨c2, hc2, hb3⟩ := List.mem_flatMap.1 hb2
  have hsub := pairsOf_subset _ _ hpq
  obtain ⟨dn1, hdn1, he1⟩ := mem_strong24 nets pq.1 hsub.1
  obtain ⟨dn2, hdn2, he2⟩ := mem_strong24 nets pq.2 hsub.2
  by_cases hcond : c1.1 ≠ c2.1 ∧ _channels_overlap c1.1 c2.1
  · rw [if_pos hcond] at hb3
    rcases List.mem_append.1 hb3 with hb4 | hb4
    · obtain ⟨sr, hsr, hf⟩ := List.mem_filterMap.1 hb4
      by_cases hs : -70 < sr.2
      · rw [if_pos hs] at hf
        rcases Option.some.inj hf with rfl
        exact chanMap_invariant dn2 c2 (he2 ▸ hc2) sr hsr
      · rw [if_neg hs] at hf
        cases hf
    · obtain ⟨sr, hsr, hf⟩ := List.mem_filterMap.1 hb4
      by_cases hs : -70 < sr.2
      · rw [if_pos hs] at hf
        rcases Option.some.inj hf with rfl
        exact chanMap_invariant dn1 c1 (he1 ▸ hc1) sr hsr
      · rw [if_neg hs] at hf
        cases hf
  · rw [if_neg hcond] at hb3
    cases hb3

/-- No hidden ssid ever appears in the overlap-interference table. -/
lemma analyze_overlap_ssid (nets : List APData) (ch : Int) (e : Int × String × Int)
    (he : e ∈ _analyze_overlap_interference nets ch) : e.2.1 ≠ "{Hidden}" := by
  unfold _analyze_overlap_interference at he
  rw [mem_sortDesc, List.mem_dedup] at he
  obtain ⟨x, hx, hxe⟩ := List.mem_map.1 he
  have := overlapRaw_ssid nets x (List.mem_filter.1 hx).1
  rw [← hxe]
  exact this

lemma pyMaxBy_mem (key : α → Int) (x : α) (xs : List α) :
    pyMaxBy key x xs ∈ x :: xs := by
  induction xs generalizing x with
  | nil => exact List.mem_cons_self x []
  | cons y ys ih =>
    have h := ih (if key x < key y then key x < key y |> fun _ => y else x)
    have h2 : pyMaxBy key x (y :: ys) = pyMaxBy key (if key x < key y then y else x) ys := rfl
    rw [h2]
    have h3 := ih (if key x < key y then y else x)
    rcases List.mem_cons.1 h3 with h4 | h4
    · rw [h4]
      by_cases hk : key x < key y
      · rw [if_pos hk]
        exact List.mem_cons_of_mem _ (List.mem_cons_self _ _)
      · rw [if_neg hk]
        exact List.mem_cons_self _ _
    · exact List.mem_cons_of_mem _ (List.mem_cons_of_mem _ h4)

lemma deviceInterferers_ssid (dn : List APData) (t : String × Int × Int)
    (ht : t ∈ deviceInterferers dn) : t.1 ≠ "{Hidden}" := by
  obtain ⟨n, hn, hf⟩ := List.mem_filterMap.1 ht
  by_cases hc : -70 < n.signal_strength ∧ n.ssid ≠ "{Hidden}"
  · rw [if_pos hc] at hf
    rcases Option.some.inj hf with rfl
    exact hc.2
  · rw [if_neg hc] at hf
    cases hf

lemma strongInterferersAt_ssid (prefixes : List String) (aps : List APData)
    (i : String × Int × Int) (hi : i ∈ strongInterferersAt prefixes aps) :
    i.1 ≠ "{Hidden}" := by
  obtain ⟨g, hg, hbody⟩ := List.mem_flatMap.1 hi
  by_cases ht : isTargetDevice prefixes g.2
  · rw [if_pos ht] at hbody
    cases hbody
  · rw [if_neg ht] at hbody
    rcases hdi : deviceInterferers g.2 with _ | ⟨d, ds⟩
    · rw [hdi] at hbody
      cases hbody
    · rw [hdi] at hbody
      rcases List.mem_singleton.1 hbody with rfl
      have hmem : pyMaxBy (fun t => t.2.2) d ds ∈ d :: ds := pyMaxBy_mem _ d ds
      rw [← hdi] at hmem
      exact deviceInterferers_ssid g.2 _ hmem

/-- No hidden ssid ever appears among the interferers of a problem
area. -/
lemma problem_areas_ssid (sps : List ScanPoint) (prefixes : List String)
    (area : Int × Int × Int × Nat × List (String × Int × Int))
    (ha : area ∈ _find_problem_areas sps prefixes) :
    ∀ i ∈ area.2.2.2.2, i.1 ≠ "{Hidden}" := by
  obtain ⟨sp, hsp, hbody⟩ := List.mem_flatMap.1 ha
  unfold problemAreaAt at hbody
  rcases hts : targetSignalAt prefixes sp.ap_list with _ | t
  · rw [hts] at hbody
    cases hbody
  · rw [hts] at hbody
    have hbody2 : area ∈
        (if t ≠ 0 ∧ -60 < t ∧ 2 ≤ (strongInterferersAt prefixes sp.ap_list).length then
          [(pyTrunc sp.map_x, (pyTrunc sp.map_y, (t,
            ((strongInterferersAt prefixes sp.ap_list).length,
            (sortDesc (fun x => x.2.2) (strongInterferersAt prefixes sp.ap_list)).take 5))))]
        else []) := hbody
    clear hbody
    rename' hbody2 => hbody
    by_cases hc : t ≠ 0 ∧ -60 < t ∧ 2 ≤ (strongInterferersAt prefixes sp.ap_list).length
    · rw [if_pos hc] at hbody
      rcases List.mem_singleton.1 hbody with rfl
      intro i hi
      have hi2 : i ∈ sortDesc (fun x => x.2.2) (strongInterferersAt prefixes sp.ap_list) :=
        List.take_subset _ _ hi
      rw [mem_sortDesc] at hi2
      exact strongInterferersAt_ssid prefixes sp.ap_list i hi2
    · rw [if_neg hc] at hbody
      cases hbody

lemma statStep_skip (acc : List (String × Nat × Int × Int)) (n : APData)
    (h : ¬(n.ssid ≠ "" ∧ n.ssid ≠ "{Hidden}")) : statStep acc n = acc := by
  rw [statStep, if_neg h]

lemma ssidStats_filter_aux (nets : List APData) :
    ∀ (acc : List (String × Nat × Int × Int)),
      (nets.filter (fun n => decide (n.ssid ≠ "{Hidden}"))).foldl statStep acc
      = nets.foldl statStep acc := by
  induction nets with
  | nil => intro acc; rfl
  | cons n ns ih =>
    intro acc
    by_cases hn : n.ssid = "{Hidden}"
    · rw [List.filter_cons, if_neg (by simp [hn]), List.foldl_cons,
        statStep_skip acc n (by simp [hn]), ih acc]
    · rw [List.filter_cons, if_pos (by simp [hn]), List.foldl_cons, List.foldl_cons, ih _]

/-- Removing the hidden measurements does not change the ssid
statistics. -/
lemma ssidStats_filter (nets : List APData) :
    ssidStats (nets.filter (fun n => decide (n.ssid ≠ "{Hidden}"))) = ssidStats nets := by
  unfold ssidStats
  exact ssidStats_filter_aux nets []

/-- Auto-detection is unchanged by deleting hidden measurements. -/
lemma auto_detect_filter (selfPrefixes : List String) (nets : List APData) :
    _auto_detect_target_network selfPrefixes nets
      = _auto_detect_target_network selfPrefixes
        (nets.filter (fun n => decide (n.ssid ≠ "{Hidden}"))) := by
  unfold _auto_detect_target_network
  by_cases hs : selfPrefixes ≠ []
  · rw [if_pos hs, if_pos hs]
  · rw [if_neg hs, if_neg hs, ssidStats_filter]

/-- Claim C10: a measurement with the literal hidden ssid never
contributes an entry to the strong-interferer table, the
overlap-interference table, or the problem-area interferer lists, and
auto-detection of the target network is invariant under deleting the
hidden measurements. -/
theorem hidden_never_contributes :
    (∀ (nets : List APData) (prefixes : List String) (ch : Int) (e : String × Int),
      e ∈ _find_strong_interferers nets prefixes ch → e.1 ≠ "{Hidden}") ∧
    (∀ (nets : List APData) (ch : Int) (e : Int × String × Int),
      e ∈ _analyze_overlap_interference nets ch → e.2.1 ≠ "{Hidden}") ∧
    (∀ (sps : List ScanPoint) (prefixes : List String)
      (area : Int × Int × Int × Nat × List (String × Int × Int)),
      area ∈ _find_problem_areas sps prefixes → ∀ i ∈ area.2.2.2.2, i.1 ≠ "{Hidden}") ∧
    (∀ (selfPrefixes : List String) (nets : List APData),
      _auto_detect_target_network selfPrefixes nets
        = _auto_detect_target_network selfPrefixes
          (nets.filter (fun n => decide (n.ssid ≠ "{Hidden}")))) :=
  ⟨strong_interferers_ssid, analyze_overlap_ssid, problem_areas_ssid, auto_detect_filter⟩

theorem hidden_never_contributes_witness :
    ("B", (-40 : Int)) ∈ _find_strong_interferers [aC2, bC2] [] 3 ∧
    (("B", (-40 : Int)).1 ≠ "{Hidden}") :=
  ⟨by decide, hidden_never_contributes.1 [aC2, bC2] [] 3 ("B", -40) (by decide)⟩

/-! ### Path-loss model (claim C1) -/

/-- A source with base power -10 dBm at the origin, for the C1
counterexample. -/
noncomputable def apC1 : APLoc := ⟨0, 0, -10, "2.4 GHz"⟩

/-- Claim C1 counterexample: at distance 0 from a source with base
power -10 dBm the computed signal is -10 dBm, strictly above the -20
dBm ceiling the claim says the result is clamped to; the function
applies no clamping. -/
theorem path_loss_unclamped_counterexample :
    _calculate_signal_at_point 1920 apC1 0 0 = -10 ∧
    ¬(_calculate_signal_at_point 1920 apC1 0 0 ≤ -20) := by
  have h : _calculate_signal_at_point 1920 apC1 0 0 = -10 := by
    simp [_calculate_signal_at_point, apC1]
  exact ⟨h, by rw [h]; norm_num⟩

/-- Claim C1 (amended): the computed signal is exactly the base power
minus the pixel distance converted to feet at 164 feet per width
pixels times the band loss rate (0.5 dB per foot for 2.4 GHz, 0.6
otherwise), with no clamping; at distance 0 it equals the base
power. -/
theorem path_loss_formula (w : ℕ) (ap : APLoc) (x y : ℝ) :
    _calculate_signal_at_point w ap x y
      = ap.max_signal - Real.sqrt ((x - ap.x) ^ 2 + (y - ap.y) ^ 2) * (164.0 / (w : ℝ))
        * (if ap.band = "2.4 GHz" then (0.5 : ℝ) else 0.6)
    ∧ _calculate_signal_at_point w ap ap.x ap.y = ap.max_signal := by
  constructor
  · rfl
  · simp [_calculate_signal_at_point]

/-! ### Color mapper (claim C7) -/

/-- Claim C7 is false of the code and the code contradicts its own
comment: the input is clamped to the range -95 to -15 but the top
anchor sits at -20, so a signal of -16 dBm (stronger than every
anchor) falls through every bracketing test into the fallback branch
the source comments as "blue for very weak signals".  A strong -16 dBm
signal is coloured exactly like a very poor -90 dBm signal and strictly
bluer than the weaker -30 dBm signal. -/
theorem color_gradient_ceiling_bug :
    _signal_to_color_gradient (-16) = (0, (0, 255)) ∧
    _signal_to_color_gradient (-90) = (0, (0, 255)) ∧
    _signal_to_color_gradient (-30) = (102, (255, 0)) := by
  refine ⟨?_, ?_, ?_⟩ <;>
    norm_num [_signal_to_color_gradient, color_points, interpSegs, pyTrunc]

/-! ### Grid builder determinism (claim C9) -/

lemma ite_max (a s : ℝ) : (if a < s then s else a) = max a s := by
  rcases lt_or_le a s with h | h
  · rw [if_pos h, max_eq_right h.le]
  · rw [if_neg (not_lt.2 h), max_eq_left h]

lemma foldl_max_perm (l1 l2 : List ℝ) (hp : l1.Perm l2) :
    ∀ b : ℝ, l1.foldl max b = l2.foldl max b := by
  induction hp with
  | nil => intro b; rfl
  | cons x p ih =>
    intro b
    rw [List.foldl_cons, List.foldl_cons]
    exact ih _
  | swap x y l =>
    intro b
    rw [List.foldl_cons, List.foldl_cons, List.foldl_cons, List.foldl_cons, sup_right_comm]
  | trans p1 p2 ih1 ih2 =>
    intro b
    exact (ih1 b).trans (ih2 b)

lemma strongestAt_eq_foldl_max (w : ℕ) (aps : List APLoc) (x y : ℝ) :
    strongestAt w aps x y
      = (aps.map (fun ap => _calculate_signal_at_point w ap x y)).foldl max (-999) := by
  unfold strongestAt
  generalize (-999 : ℝ) = b
  induction aps generalizing b with
  | nil => rfl
  | cons a as ih =>
    simp only [List.map_cons, List.foldl_cons]
    rw [ite_max]
    exact ih _

/-- Claim C9: the signal grid is a pure function of its inputs and the
per-cell strongest-source maximum is insensitive to the order of the
source list, so any reordering of the sources yields an identical grid
cell for cell. -/
theorem grid_order_insensitive (w h : ℕ) (aps aps2 : List APLoc)
    (hp : aps.Perm aps2) :
    _create_signal_strength_grid w h aps = _create_signal_strength_grid w h aps2 := by
  have hs : ∀ (x y : ℝ), strongestAt w aps x y = strongestAt w aps2 x y := by
    intro x y
    rw [strongestAt_eq_foldl_max, strongestAt_eq_foldl_max]
    exact foldl_max_perm _ _ (hp.map _) _
  have hcell : ∀ row col, gridCell w aps row col = gridCell w aps2 row col := by
    intro row col
    simp only [gridCell]
    rw [hs]
  unfold _create_signal_strength_grid
  exact List.map_congr_left
    (fun row _ => List.map_congr_left (fun col _ => hcell row col))

/-- First source for the C9 witness. -/
noncomputable def apA : APLoc := ⟨0, 0, -30, "2.4 GHz"⟩

/-- Second source for the C9 witness. -/
noncomputable def apB : APLoc := ⟨10, 10, -40, "5 GHz"⟩

theorem grid_order_insensitive_witness :
    _create_signal_strength_grid 8 8 [apA, apB]
      = _create_signal_strength_grid 8 8 [apB, apA] :=
  grid_order_insensitive 8 8 [apA, apB] [apB, apA] (List.Perm.swap apB apA [])

/-! ### External-source triangulator (claim C3) -/

/-- Claim C3: with at least 3 measurements the triangulated source is
always defined and lies strictly outside the axis-aligned bounding box
of the measurement coordinates, for any direction argument: every
placement branch puts one coordinate a strictly positive offset beyond
a bounding-box edge. -/
theorem triangulated_source_outside (ms : List TMeas) (dir : Option (Int × Int))
    (h : 3 ≤ ms.length) :
    ∃ p, _triangulate_external_source ms dir = some p ∧ strictlyOutsideBBox p ms := by
  have hoff : ∀ r : Int, 0 < offsetFor r := by
    intro r
    unfold offsetFor
    split_ifs <;> norm_num
  simp only [_triangulate_external_source]
  rw [if_neg (by omega)]
  split
  · rename_i heq
    exfalso
    have hl := length_sortDesc (fun m => m.rssi) ms
    rw [heq] at hl
    simp at hl
    omega
  · rename_i t0 ts heq
    have htw : 0 < (((t0 :: ts).take 3).map
        (fun m => (10 : ℝ) ^ ((((m.rssi : ℝ)) + 100) / 20))).sum := by
      apply List.sum_pos
      · intro x hx
        obtain ⟨m, hm, rfl⟩ := List.mem_map.1 hx
        exact Real.rpow_pos_of_pos (by norm_num) _
      · simp
    rw [if_neg htw.ne']
    rcases dir with _ | ⟨dx, dy⟩ <;>
      split_ifs <;>
      refine ⟨_, rfl, ?_⟩ <;>
      simp only [strictlyOutsideBBox] <;>
      first
        | exact Or.inl (by linarith [hoff t0.rssi])
        | exact Or.inr (Or.inl (by linarith [hoff t0.rssi]))
        | exact Or.inr (Or.inr (Or.inl (by linarith [hoff t0.rssi])))
        | exact Or.inr (Or.inr (Or.inr (by linarith [hoff t0.rssi])))

/-- Three concrete measurements for the C3 witness. -/
noncomputable def msC3 : List TMeas :=
  [⟨0, 0, -50, "X"⟩, ⟨100, 0, -55, "X"⟩, ⟨0, 100, -60, "X"⟩]

theorem triangulated_source_outside_witness :
    3 ≤ msC3.length ∧
    ∃ p, _triangulate_external_source msC3 none = some p ∧ strictlyOutsideBBox p msC3 :=
  ⟨by decide, triangulated_source_outside msC3 none (by decide)⟩

/-! ### In-bounds emitter estimator (claim C4) -/

lemma list_map_sum_fin {α : Type} (f : α → ℝ) (l : List α) :
    (l.map f).sum = ∑ i : Fin l.length, f (l.get i) := by
  induction l with
  | nil => simp
  | cons a l ih =>
    rw [List.map_cons, List.sum_cons, ih]
    exact (Fin.sum_univ_succ (fun i : Fin (l.length + 1) => f ((a :: l).get i))).symm

/-- Claim C4: for a non-empty measurement list with non-zero total
weight the estimator returns the centroid of the measurement
coordinates weighted by 10 ^ (rssi / 10), and that coordinate lies in
the convex hull of the measurement coordinates. -/
theorem estimated_location_in_hull (ms : List EMeas) (h1 : ms ≠ [])
    (h2 : total_weight ms ≠ 0) :
    ∃ e, _estimate_ap_source_location ms = some e ∧
      e.x = weighted_x ms / total_weight ms ∧
      e.y = weighted_y ms / total_weight ms ∧
      (e.x, e.y) ∈ convexHull ℝ { p : ℝ × ℝ | ∃ m ∈ ms, p = (m.x, m.y) } := by
  obtain ⟨m0, rest, rfl⟩ : ∃ m0 rest, ms = m0 :: rest := by
    rcases ms with _ | ⟨m0, rest⟩
    · exact absurd rfl h1
    · exact ⟨m0, rest, rfl⟩
  have hdef : _estimate_ap_source_location (m0 :: rest) = some
      { bssid := (pyMaxBy (fun m => m.signal) m0 rest).ap_data.bssid
        x := weighted_x (m0 :: rest) / total_weight (m0 :: rest)
        y := weighted_y (m0 :: rest) / total_weight (m0 :: rest)
        max_signal := (pyMaxBy (fun m => m.signal) m0 rest).signal
        ssid := (pyMaxBy (fun m => m.signal) m0 rest).ap_data.ssid
        channel := (pyMaxBy (fun m => m.signal) m0 rest).ap_data.channel
        band := (pyMaxBy (fun m => m.signal) m0 rest).ap_data.band } := by
    simp only [_estimate_ap_source_location]
    rw [if_neg h2]
  refine ⟨_, hdef, rfl, rfl, ?_⟩
  show (weighted_x (m0 :: rest) / total_weight (m0 :: rest),
      weighted_y (m0 :: rest) / total_weight (m0 :: rest))
      ∈ convexHull ℝ { p : ℝ × ℝ | ∃ m ∈ m0 :: rest, p = (m.x, m.y) }
  have hw : ∀ i : Fin (m0 :: rest).length,
      (0:ℝ) < (10 : ℝ) ^ ((((m0 :: rest).get i).signal : ℝ) / 10) :=
    fun i => Real.rpow_pos_of_pos (by norm_num) _
  have htw : total_weight (m0 :: rest)
      = ∑ i : Fin (m0 :: rest).length, (10 : ℝ) ^ ((((m0 :: rest).get i).signal : ℝ) / 10) :=
    list_map_sum_fin _ _
  have htwpos : 0 < ∑ i : Fin (m0 :: rest).length,
      (10 : ℝ) ^ ((((m0 :: rest).get i).signal : ℝ) / 10) :=
    Finset.sum_pos (fun i _ => hw i) ⟨⟨0, by simp⟩, Finset.mem_univ _⟩
  have hmem : Finset.univ.centerMass
      (fun i : Fin (m0 :: rest).length => (10 : ℝ) ^ ((((m0 :: rest).get i).signal : ℝ) / 10))
      (fun i => (((m0 :: rest).get i).x, ((m0 :: rest).get i).y))
      ∈ convexHull ℝ { p : ℝ × ℝ | ∃ m ∈ m0 :: rest, p = (m.x, m.y) } :=
    Finset.centerMass_mem_convexHull _ (fun i _ => (hw i).le) htwpos
      (fun i _ => ⟨(m0 :: rest).get i, List.get_mem _ _ _, rfl⟩)
  have heq : (weighted_x (m0 :: rest) / total_weight (m0 :: rest),
      weighted_y (m0 :: rest) / total_weight (m0 :: rest))
      = Finset.univ.centerMass
          (fun i : Fin (m0 :: rest).length => (10 : ℝ) ^ ((((m0 :: rest).get i).signal : ℝ) / 10))
          (fun i => (((m0 :: rest).get i).x, ((m0 :: rest).get i).y)) := by
    rw [Finset.centerMass]
    have hx : weighted_x (m0 :: rest)
        = ∑ i : Fin (m0 :: rest).length,
            ((m0 :: rest).get i).x * (10 : ℝ) ^ ((((m0 :: rest).get i).signal : ℝ) / 10) :=
      list_map_sum_fin _ _
    have hy : weighted_y (m0 :: rest)
        = ∑ i : Fin (m0 :: rest).length,
            ((m0 :: rest).get i).y * (10 : ℝ) ^ ((((m0 :: rest).get i).signal : ℝ) / 10) :=
      list_map_sum_fin _ _
    rw [Prod.ext_iff]
    constructor
    · simp only [Prod.smul_fst, Prod.fst_sum, smul_eq_mul]
      rw [htw, hx, div_eq_inv_mul]
      congr 1
      exact Finset.sum_congr rfl (fun i _ => mul_comm _ _)
    · simp only [Prod.smul_snd, Prod.snd_sum, smul_eq_mul]
      rw [htw, hy, div_eq_inv_mul]
      congr 1
      exact Finset.sum_congr rfl (fun i _ => mul_comm _ _)
  rw [heq]
  exact hmem

/-- Two measurements at signal 0 dBm for the C4 witness. -/
noncomputable def msC4 : List EMeas := [⟨0, 0, 0, aC2⟩, ⟨2, 0, 0, aC2⟩]

theorem estimated_location_in_hull_witness :
    msC4 ≠ [] ∧ total_weight msC4 ≠ 0 ∧
    (∃ e, _estimate_ap_source_location msC4 = some e ∧
      e.x = weighted_x msC4 / total_weight msC4 ∧
      e.y = weighted_y msC4 / total_weight msC4 ∧
      (e.x, e.y) ∈ convexHull ℝ { p : ℝ × ℝ | ∃ m ∈ msC4, p = (m.x, m.y) }) := by
  have htw : total_weight msC4 ≠ 0 := by
    norm_num [msC4, total_weight, Real.rpow_zero]
  exact ⟨by simp [msC4], htw, estimated_location_in_hull msC4 (by simp [msC4]) htw⟩

/-! ### NLOS filtering (claim C6) -/

open Classical in
/-- Claim C6 (amended, restricted to inputs of at least 5
measurements): every measurement at most 15 dB above the median is
kept; when at least 3 measurements survive the filter, the filtered
list is returned and every kept measurement above median + 15 fits the
propagation pattern; when fewer than 3 survive, the unfiltered list is
returned.  Lists shorter than 5 are returned unfiltered without any
check. -/
theorem nlos_filter_spec (ms : List TMeas) :
    (ms.length < 5 → _filter_nlos_measurements ms = ms)
    ∧ (∀ m ∈ ms, (m.rssi : ℚ) ≤ medianRssi (ms.map (fun t => t.rssi)) + 15 →
        m ∈ _filter_nlos_measurements ms)
    ∧ (5 ≤ ms.length → 3 ≤ (nlosFiltered ms).length →
        _filter_nlos_measurements ms = nlosFiltered ms ∧
        ∀ m ∈ _filter_nlos_measurements ms,
          medianRssi (ms.map (fun t => t.rssi)) + 15 < (m.rssi : ℚ) →
          _fits_propagation_pattern m ms)
    ∧ (5 ≤ ms.length → (nlosFiltered ms).length < 3 → _filter_nlos_measurements ms = ms) := by
  refine ⟨?_, ?_, ?_, ?_⟩
  · intro h
    unfold _filter_nlos_measurements
    rw [if_pos h]
  · intro m hm hle
    unfold _filter_nlos_measurements
    by_cases h5 : ms.length < 5
    · rw [if_pos h5]
      exact hm
    · rw [if_neg h5]
      by_cases h3 : 3 ≤ (nlosFiltered ms).length
      · rw [if_pos h3]
        unfold nlosFiltered
        refine List.mem_filter.2 ⟨hm, ?_⟩
        show (if (m.rssi : ℚ) ≤ medianRssi (ms.map (fun t => t.rssi)) + 15 then true
          else if _fits_propagation_pattern m ms then true else false) = true
        rw [if_pos hle]
      · rw [if_neg h3]
        exact hm
  · intro h5 h3
    have heq : _filter_nlos_measurements ms = nlosFiltered ms := by
      unfold _filter_nlos_measurements
      rw [if_neg (not_lt.2 h5), if_pos h3]
    refine ⟨heq, ?_⟩
    intro m hm hgt
    rw [heq] at hm
    unfold nlosFiltered at hm
    have hpred := (List.mem_filter.1 hm).2
    have hpred2 : (if (m.rssi : ℚ) ≤ medianRssi (ms.map (fun t => t.rssi)) + 15 then true
        else if _fits_propagation_pattern m ms then true else false) = true := hpred
    rw [if_neg (not_le.2 hgt)] at hpred2
    by_cases hf : _fits_propagation_pattern m ms
    · exact hf
    · rw [if_neg hf] at hpred2
      cases hpred2
  · intro h5 h3
    unfold _filter_nlos_measurements
    rw [if_neg (not_lt.2 h5), if_neg (not_le.2 (by omega))]

/-- One measurement of the 5-element C6 witness set. -/
noncomputable def mC6w : TMeas := ⟨200, 0, -60, "X"⟩

theorem nlos_filter_spec_witness :
    mC6w ∈ ([mC6w, mC6w, mC6w, mC6w, mC6w] : List TMeas) ∧
    ((mC6w.rssi : ℚ)
        ≤ medianRssi (([mC6w, mC6w, mC6w, mC6w, mC6w] : List TMeas).map (fun t => t.rssi)) + 15) ∧
    mC6w ∈ _filter_nlos_measurements [mC6w, mC6w, mC6w, mC6w, mC6w] := by
  have hmed : medianRssi (([mC6w, mC6w, mC6w, mC6w, mC6w] : List TMeas).map (fun t => t.rssi))
      = -60 := by
    norm_num [medianRssi, sortAscInt, insertAsc, mC6w]
  have hle : (mC6w.rssi : ℚ)
      ≤ medianRssi (([mC6w, mC6w, mC6w, mC6w, mC6w] : List TMeas).map (fun t => t.rssi)) + 15 := by
    rw [hmed]
    norm_num [mC6w]
  exact ⟨List.mem_cons_self _ _, hle,
    (nlos_filter_spec [mC6w, mC6w, mC6w, mC6w, mC6w]).2.1 mC6w (List.mem_cons_self _ _) hle⟩

/-- A legitimate measurement 50 px from the reflection artifact, for
the C6 counterexample. -/
noncomputable def mC6a : TMeas := ⟨50, 0, -60, "X"⟩

/-- Second legitimate measurement of the C6 counterexample. -/
noncomputable def mC6b : TMeas := ⟨100, 0, -60, "X"⟩

/-- Third legitimate measurement of the C6 counterexample. -/
noncomputable def mC6c : TMeas := ⟨150, 0, -60, "X"⟩

/-- A measurement 60 dB above the others that violates the falloff
check, for the C6 counterexample. -/
noncomputable def mC6d : TMeas := ⟨0, 0, 0, "X"⟩

/-- A four-measurement set containing an outlier, for the C6
counterexample. -/
noncomputable def msC6 : List TMeas := [mC6a, mC6b, mC6c, mC6d]

lemma hmedC6 : medianRssi (msC6.map (fun t => t.rssi)) = -60 := by
  norm_num [medianRssi, sortAscInt, insertAsc, msC6, mC6a, mC6b, mC6c, mC6d]

lemma hdC6 : Real.sqrt ((mC6d.x - mC6a.x) ^ 2 + (mC6d.y - mC6a.y) ^ 2) = 50 := by
  have h : (mC6d.x - mC6a.x) ^ 2 + (mC6d.y - mC6a.y) ^ 2 = 50 ^ 2 := by
    norm_num [mC6d, mC6a]
  rw [h, Real.sqrt_sq (by norm_num : (0:ℝ) ≤ 50)]

/-- Claim C6 counterexample: in a set of 4 measurements the outlier
mC6d exceeds median + 15 dB and fails the consistency check against
the nearby measurement mC6a, and at least 3 measurements survive the
claimed filtering rule, yet the code keeps the outlier because lists
shorter than 5 are returned unfiltered. -/
theorem nlos_short_input_counterexample :
    mC6d ∈ _filter_nlos_measurements msC6 ∧
    medianRssi (msC6.map (fun t => t.rssi)) + 15 < (mC6d.rssi : ℚ) ∧
    ¬ _fits_propagation_pattern mC6d msC6 ∧
    3 ≤ (msC6.filter (fun m =>
      decide ((m.rssi : ℚ) ≤ medianRssi (msC6.map (fun t => t.rssi)) + 15))).length := by
  refine ⟨?_, ?_, ?_, ?_⟩
  · unfold _filter_nlos_measurements
    rw [if_pos (by norm_num [msC6])]
    simp [msC6]
  · rw [hmedC6]
    norm_num [mC6d]
  · unfold _fits_propagation_pattern
    push_neg
    refine ⟨mC6a, by simp [msC6], ?_, ?_, ?_⟩
    · rw [hdC6]
    · rw [hdC6]; norm_num
    · rw [hdC6]
      have hl : Real.logb 10 (50 / 50) = 0 := by
        norm_num [Real.logb_one]
      rw [hl]
      norm_num [mC6d, mC6a]
  · have hmed2 : medianRssi (List.map (fun t => t.rssi) [mC6a, mC6b, mC6c, mC6d]) = -60 :=
      hmedC6
    simp only [msC6, List.filter_cons, List.filter_nil, hmed2]
    rw [if_pos (by norm_num [mC6a] : (decide ((mC6a.rssi : ℚ) ≤ -60 + 15)) = true)]
    rw [if_pos (by norm_num [mC6b] : (decide ((mC6b.rssi : ℚ) ≤ -60 + 15)) = true)]
    rw [if_pos (by norm_num [mC6c] : (decide ((mC6c.rssi : ℚ) ≤ -60 + 15)) = true)]
    rw [if_neg (by norm_num [mC6d] : ¬(decide ((mC6d.rssi : ℚ) ≤ -60 + 15)) = true)]
    simp

end WLAN
